import Mathlib

set_option maxHeartbeats 1000000

/- Verification development for the CSV import core of the relax-tools
   repository (src/src/features/csv/importer.ts): sheet routing from file
   names, encoding resolution, placement planning with truncation, and the
   per-batch import loop.  Host spreadsheet writes are modelled as an
   explicit list of emitted write actions. -/

/-! ### Sheet Router

The function extractMonthFromFileName strips a trailing ".csv" extension
case insensitively, matches the literal prefix "enavi" followed by exactly
six digits and an opening parenthesis, and derives a month from the six
digits. -/

/-- Strip a trailing ".csv", case insensitively (the regex in line 19 of
the source, applied to the file name as a character list). -/
def stripCsvExt (l : List Char) : List Char :=
  if (l.drop (l.length - 4)).map Char.toLower = ['.', 'c', 's', 'v'] then
    l.take (l.length - 4)
  else l

/-- The anchored pattern in line 22 of the source: literal "enavi", then
exactly six digits, then an opening parenthesis.  On success, returns the
six digit characters and the remainder of the name. -/
def enaviMatch (l : List Char) : Option (List Char × List Char) :=
  match l with
  | c1 :: c2 :: c3 :: c4 :: c5 :: d1 :: d2 :: d3 :: d4 :: d5 :: d6 :: p :: rest =>
    if c1 = 'e' ∧ c2 = 'n' ∧ c3 = 'a' ∧ c4 = 'v' ∧ c5 = 'i'
       ∧ d1.isDigit ∧ d2.isDigit ∧ d3.isDigit ∧ d4.isDigit ∧ d5.isDigit ∧ d6.isDigit
       ∧ p = '(' then
      some ([d1, d2, d3, d4, d5, d6], rest)
    else none
  | _ => none

/-- Numeric value of a decimal digit character. -/
def digitVal (c : Char) : Nat := c.toNat - 48

/-- Value of a string of decimal digits, as computed by parseInt with
radix 10 on a digits-only string. -/
def digitsVal (l : List Char) : Nat := l.foldl (fun a c => a * 10 + digitVal c) 0

/-- Lines 35 to 50 of the source: disambiguate the six digits as YYYYMM
when the first four digits read as at least 2000, as YYMMDD otherwise, and
keep the month only when it lies in 1..12. -/
def monthFromDigits (ds : List Char) : Option String :=
  let first4 := digitsVal (ds.take 4)
  if 2000 ≤ first4 then
    let m := digitsVal (ds.drop 4)
    if 1 ≤ m ∧ m ≤ 12 then some (Nat.repr m) else none
  else
    let m := digitsVal ((ds.drop 2).take 2)
    if 1 ≤ m ∧ m ≤ 12 then some (Nat.repr m) else none

/-- extractMonthFromFileName, lines 17 to 53 of the source. -/
def extractMonthFromFileName (fileName : String) : Option String :=
  match enaviMatch (stripCsvExt fileName.toList) with
  | none => none
  | some (ds, _) => monthFromDigits ds

/-! ### Encoding Resolver

Bytes are modelled as natural numbers below 256, decoded text as a list of
unicode code points.  The decoder follows the WHATWG utf-8 decoder used by
TextDecoder, in both fatal and replacement modes; the replacement mode
consumes a maximal subpart of an ill-formed sequence per replacement
character.  The step function returns the decoded code point (none when
ill-formed) and the number of continuation bytes consumed beyond the
first byte. -/

def utf8Step (b : Nat) (rest : List Nat) : Option Nat × Nat :=
  if b ≤ 0x7F then (some b, 0)
  else if 0xC2 ≤ b ∧ b ≤ 0xDF then
    match rest with
    | b2 :: _ =>
      if 0x80 ≤ b2 ∧ b2 ≤ 0xBF then (some ((b - 0xC0) * 64 + (b2 - 0x80)), 1)
      else (none, 0)
    | [] => (none, 0)
  else if 0xE0 ≤ b ∧ b ≤ 0xEF then
    let lo := if b = 0xE0 then 0xA0 else 0x80
    let hi := if b = 0xED then 0x9F else 0xBF
    match rest with
    | b2 :: rest2 =>
      if lo ≤ b2 ∧ b2 ≤ hi then
        match rest2 with
        | b3 :: _ =>
          if 0x80 ≤ b3 ∧ b3 ≤ 0xBF then
            (some (((b - 0xE0) * 64 + (b2 - 0x80)) * 64 + (b3 - 0x80)), 2)
          else (none, 1)
        | [] => (none, 1)
      else (none, 0)
    | [] => (none, 0)
  else if 0xF0 ≤ b ∧ b ≤ 0xF4 then
    let lo := if b = 0xF0 then 0x90 else 0x80
    let hi := if b = 0xF4 then 0x8F else 0xBF
    match rest with
    | b2 :: rest2 =>
      if lo ≤ b2 ∧ b2 ≤ hi then
        match rest2 with
        | b3 :: rest3 =>
          if 0x80 ≤ b3 ∧ b3 ≤ 0xBF then
            match rest3 with
            | b4 :: _ =>
              if 0x80 ≤ b4 ∧ b4 ≤ 0xBF then
                (some ((((b - 0xF0) * 64 + (b2 - 0x80)) * 64 + (b3 - 0x80)) * 64 + (b4 - 0x80)), 3)
              else (none, 2)
            | [] => (none, 2)
          else (none, 1)
        | [] => (none, 1)
      else (none, 0)
    | [] => (none, 0)
  else (none, 0)

/-- Strict decoding loop; the fuel argument is initialised to the length
of the byte list and strictly dominates the number of steps, since every
step consumes at least one byte. -/
def utf8StrictGo : Nat → List Nat → Option (List Nat)
  | _, [] => some []
  | 0, _ :: _ => none
  | fuel + 1, b :: rest =>
    match utf8Step b rest with
    | (some cp, k) =>
      match utf8StrictGo fuel (rest.drop k) with
      | some cps => some (cp :: cps)
      | none => none
    | (none, _) => none

/-- Strict (fatal) utf-8 decoding: fails on any ill-formed sequence. -/
def utf8StrictDecode (l : List Nat) : Option (List Nat) := utf8StrictGo l.length l

/-- Replacement-mode decoding loop. -/
def utf8LenientGo : Nat → List Nat → List Nat
  | _, [] => []
  | 0, _ :: _ => []
  | fuel + 1, b :: rest =>
    match utf8Step b rest with
    | (some cp, k) => cp :: utf8LenientGo fuel (rest.drop k)
    | (none, k) => 0xFFFD :: utf8LenientGo fuel (rest.drop k)

/-- Replacement-mode utf-8 decoding: ill-formed sequences become U+FFFD. -/
def utf8Lenient (l : List Nat) : List Nat := utf8LenientGo l.length l

/-- The three-byte utf-8 byte order mark test of line 68 of the source. -/
def hasBOM (l : List Nat) : Bool :=
  match l with
  | a :: b :: c :: _ => decide (a = 0xEF ∧ b = 0xBB ∧ c = 0xBF)
  | _ => false

/-- A TextDecoder without the fatal flag: replacement mode, and a single
leading byte order mark in the input is consumed (the platform default). -/
def textDecodeJS (l : List Nat) : List Nat :=
  if hasBOM l then utf8Lenient (l.drop 3) else utf8Lenient l

/-- A TextDecoder with the fatal flag: strict mode, and a single leading
byte order mark in the input is consumed. -/
def textDecodeFatalJS (l : List Nat) : Option (List Nat) :=
  if hasBOM l then utf8StrictDecode (l.drop 3) else utf8StrictDecode l

/-- The error message wrapped around a failing legacy decode in lines
442 to 445 of the source. -/
def encFailMsg (e : String) : String :=
  "文字エンコーディングの判定に失敗しました: " ++ e

/-- readCsvFile, lines 60 to 92 of the source.  The Shift-JIS conversion
is a call into the external encoding-japanese library and is passed in as
an abstract decoder; a thrown legacy-decode error propagates unchanged
because readCsvFile has no inner try block. -/
def readCsvFileModel (sjis : List Nat → Except String (List Nat)) (bytes : List Nat) :
    Except String (List Nat × String) :=
  if hasBOM bytes then Except.ok (textDecodeJS (bytes.drop 3), "UTF-8")
  else
    match textDecodeFatalJS bytes with
    | some t => Except.ok (t, "UTF-8")
    | none =>
      match sjis bytes with
      | Except.ok t => Except.ok (t, "SJIS")
      | Except.error e => Except.error e

/-- The inline encoding resolution of the second importer variant, lines
404 to 447 of the source: same pipeline, but a failing legacy decode is
wrapped in an encoding-detection-failure error by the inner try block. -/
def resolveBytes (sjis : List Nat → Except String (List Nat)) (bytes : List Nat) :
    Except String (List Nat × String) :=
  if hasBOM bytes then Except.ok (textDecodeJS (bytes.drop 3), "UTF-8")
  else
    match textDecodeFatalJS bytes with
    | some t => Except.ok (t, "UTF-8")
    | none =>
      match sjis bytes with
      | Except.ok t => Except.ok (t, "SJIS")
      | Except.error e => Except.error (encFailMsg e)

/-! ### Placement Planner and batch state

The state of one import batch of importCsvQuick (lines 152 to 157 of the
source): a per-sheet row pointer table, a per-sheet cleared set, the
ordered warning list, and the ordered list of write actions emitted to
the grid store. -/

/-- A parsed CSV file: its name, and its rows as produced by the parser. -/
structure CsvFile where
  name : String
  rows : List (List String)
deriving DecidableEq

/-- Write actions emitted to the host grid store. -/
inductive WriteAction where
  | clearRange (sheet : String)
  | writeFileName (sheet : String) (row : Nat) (fileName : String)
  | writeData (sheet : String) (startRow endRow : Nat) (values : List (List String))
deriving DecidableEq

/-- The placement window of one file: marker row, last written row, and
the truncation flag. -/
structure PlacementPlan where
  startRow : Nat
  endRow : Nat
  truncated : Bool
deriving DecidableEq

structure BatchState where
  sheetRowPtr : List (String × Nat)
  sheetCleared : List String
  warnings : List String
  actions : List WriteAction
deriving DecidableEq

/-- Per-file outcome, mirroring the continue branches and the write path
of the processing loop. -/
inductive FileOutcome where
  | skipNoMonth
  | skipNoSheet (month : String)
  | skipEmpty (month : String)
  | skipNoData (month : String)
  | written (month : String) (plan : PlacementPlan)
deriving DecidableEq

/-- Lookup in the row pointer record. -/
def getPtr : List (String × Nat) → String → Option Nat
  | [], _ => none
  | (k, v) :: rest, m => if k = m then some v else getPtr rest m

/-- Assignment in the row pointer record. -/
def setPtr : List (String × Nat) → String → Nat → List (String × Nat)
  | [], m, v => [(m, v)]
  | (k, w) :: rest, m, v => if k = m then (m, v) :: rest else (k, w) :: setPtr rest m v

/-- The defaulting read of line 204 of the source: a missing (or zero,
hence falsy) row pointer reads as 4. -/
def jsOrFour : Option Nat → Nat
  | none => 4
  | some v => if v = 0 then 4 else v

/-- Effective row cursor of a sheet. -/
def effRow (st : BatchState) (m : String) : Nat := jsOrFour (getPtr st.sheetRowPtr m)

/-- Column normalisation of lines 236 to 244 of the source: exactly 12
cells, missing or falsy (empty) trailing cells become empty strings. -/
def normalize12 (row : List String) : List String :=
  (List.range 12).map (fun i => row.getD i "")

/-- slice with start 0 and a possibly negative end, as in javascript:
a negative end counts back from the end of the list. -/
def sliceTo (rows : List (List String)) (e : Int) : List (List String) :=
  if 0 ≤ e then rows.take e.toNat else rows.take (rows.length - (-e).toNat)

/-- Lines 252 to 267 and 290 to 291 of the source: compute the write
window from the current row pointer and the normalised data rows, apply
the truncation policy at the capacity bound 200, and produce the plan,
the updated row pointer, and the data rows actually written. -/
def planPlacement (rowPtr : Nat) (rows : List (List String)) :
    PlacementPlan × Nat × List (List String) :=
  let dataStartRow := rowPtr + 1
  let dataEndRow := dataStartRow + rows.length - 1
  if 200 < dataEndRow then
    let maxDataRows : Int := (200 : Int) - (dataStartRow : Int) + 1
    let actual := sliceTo rows maxDataRows
    let endRow := if actual.length = 0 then rowPtr else dataStartRow + actual.length - 1
    ({ startRow := rowPtr, endRow := endRow, truncated := true }, 200, actual)
  else
    let newPtr := dataStartRow + rows.length - 1
    ({ startRow := rowPtr, endRow := newPtr, truncated := false }, newPtr, rows)

/-- Warning message template: every per-file warning of the loop starts
with the file name in this fixed frame. -/
def fileMsg (n suffix : String) : String := "ファイル「" ++ n ++ "」: " ++ suffix

def noMonthMsg (n : String) : String := fileMsg n "月を抽出できませんでした"

def noSheetMsg (n month : String) : String :=
  fileMsg n ("該当シート「" ++ month ++ "」が存在しません")

def emptyMsg (n : String) : String := fileMsg n "CSVファイルが空です"

def noDataMsg (n : String) : String := fileMsg n "データ行がありません"

def truncMsg (n : String) : String := fileMsg n "L200を超える分は切り捨てられました"

/-- Append one warning. -/
def warnSt (st : BatchState) (w : String) : BatchState :=
  { st with warnings := st.warnings ++ [w] }

/-- Lines 187 to 201 of the source: on the first encounter of a sheet,
emit the clear action, mark the sheet cleared, and initialise its row
pointer to 4. -/
def clearStage (st : BatchState) (month : String) : BatchState :=
  if month ∈ st.sheetCleared then st
  else
    { st with
      actions := st.actions ++ [WriteAction.clearRange month],
      sheetCleared := month :: st.sheetCleared,
      sheetRowPtr := setPtr st.sheetRowPtr month 4 }

/-- Lines 204 to 294 of the source: read the cursor, reject empty tables
and tables without data rows, otherwise normalise, plan the placement,
emit the marker and data writes, record a truncation warning when
applicable, and store the updated cursor. -/
def writeStage (st : BatchState) (f : CsvFile) (month : String) :
    BatchState × FileOutcome :=
  let rowPtr := effRow st month
  if f.rows.length = 0 then (warnSt st (emptyMsg f.name), FileOutcome.skipEmpty month)
  else
    let dataRows := if 2 ≤ f.rows.length then f.rows.drop 1 else []
    if dataRows.length = 0 then (warnSt st (noDataMsg f.name), FileOutcome.skipNoData month)
    else
      let dataN := dataRows.map normalize12
      let pr := planPlacement rowPtr dataN
      let acts :=
        [WriteAction.writeFileName month rowPtr f.name] ++
        (if pr.2.2.length = 0 then []
         else [WriteAction.writeData month (rowPtr + 1) (rowPtr + 1 + pr.2.2.length - 1) pr.2.2])
      ({ st with
          warnings := st.warnings ++ (if pr.1.truncated then [truncMsg f.name] else []),
          actions := st.actions ++ acts,
          sheetRowPtr := setPtr st.sheetRowPtr month pr.2.1 },
       FileOutcome.written month pr.1)

/-- One iteration of the per-file loop, lines 160 to 300 of the source.
The sheet existence probe of lines 170 to 185 is modelled by membership
of the extracted month in the workbook sheet-name list. -/
def processFile (sheets : List String) (st : BatchState) (f : CsvFile) :
    BatchState × FileOutcome :=
  match extractMonthFromFileName f.name with
  | none => (warnSt st (noMonthMsg f.name), FileOutcome.skipNoMonth)
  | some month =>
    if month ∈ sheets then writeStage (clearStage st month) f month
    else (warnSt st (noSheetMsg f.name month), FileOutcome.skipNoSheet month)

def stepB (sheets : List String) (st : BatchState) (f : CsvFile) : BatchState :=
  (processFile sheets st f).1

def initS : BatchState := { sheetRowPtr := [], sheetCleared := [], warnings := [], actions := [] }

def runBatchFrom (sheets : List String) (st : BatchState) (files : List CsvFile) : BatchState :=
  files.foldl (stepB sheets) st

def runBatch (sheets : List String) (files : List CsvFile) : BatchState :=
  runBatchFrom sheets initS files

/-- The batch-level outcome of importCsvQuick: the inner aggregate throw
of lines 303 to 308 rewrapped by the outer catch of lines 311 to 319. -/
def importCsvQuickModel (sheets : List String) (files : List CsvFile) : Except String Unit :=
  let st := runBatch sheets files
  if st.warnings = [] then Except.ok ()
  else
    Except.error
      ("CSVのインポートに失敗しました: 以下の警告がありました:\n" ++
        String.intercalate "\n" st.warnings)

/-- The state invariant of the batch loop: every stored row pointer
belongs to a cleared sheet and lies between the start row 4 and the
capacity bound 200. -/
def InvS (st : BatchState) : Prop :=
  ∀ e ∈ st.sheetRowPtr, e.1 ∈ st.sheetCleared ∧ 4 ≤ e.2 ∧ e.2 ≤ 200

/-- A concrete batch of three files in which the second one fails
routing while the first and third are well-formed. -/
def csvBatchExample : List CsvFile :=
  [{ name := "enavi202506(1111).csv", rows := [["h"], ["a"]] },
   { name := "bogus.csv", rows := [["h"], ["b"]] },
   { name := "enavi202507(2222).csv", rows := [["h"], ["c"]] }]

deriving instance DecidableEq for Except

/-! ### Helper lemmas about the pointer record and batch state -/

lemma getPtr_setPtr (l : List (String × Nat)) (m : String) (v : Nat) (m' : String) :
    getPtr (setPtr l m v) m' = if m = m' then some v else getPtr l m' := by
  induction l with
  | nil => simp [setPtr, getPtr]
  | cons e rest ih =>
    obtain ⟨k, w⟩ := e
    by_cases hk : k = m
    · subst hk
      by_cases hm : k = m' <;> simp [setPtr, getPtr, hm]
    · by_cases hm : k = m'
      · subst hm
        simp [setPtr, getPtr, hk]
        exact (if_neg fun hmk => hk hmk.symm).symm
      · simp [setPtr, getPtr, hk, hm, ih]

lemma mem_setPtr {l : List (String × Nat)} {m : String} {v : Nat} {e : String × Nat}
    (h : e ∈ setPtr l m v) : e = (m, v) ∨ e ∈ l := by
  induction l with
  | nil => simpa [setPtr] using h
  | cons e' rest ih =>
    obtain ⟨k, w⟩ := e'
    by_cases hk : k = m
    · subst hk
      simp [setPtr] at h
      rcases h with h | h
      · exact Or.inl h
      · exact Or.inr (List.mem_cons_of_mem _ h)
    · simp [setPtr, hk] at h
      rcases h with h | h
      · exact Or.inr (by simp [h])
      · rcases ih h with h' | h'
        · exact Or.inl h'
        · exact Or.inr (List.mem_cons_of_mem _ h')

lemma getPtr_mem {l : List (String × Nat)} {m : String} {v : Nat}
    (h : getPtr l m = some v) : (m, v) ∈ l := by
  induction l with
  | nil => simp [getPtr] at h
  | cons e rest ih =>
    obtain ⟨k, w⟩ := e
    by_cases hk : k = m
    · subst hk
      simp [getPtr] at h
      simp [h]
    · simp [getPtr, hk] at h
      exact List.mem_cons_of_mem _ (ih h)

lemma invS_initS : InvS initS := by
  intro e he
  simp [initS] at he

lemma effRow_bounds {st : BatchState} (h : InvS st) (m : String) :
    4 ≤ effRow st m ∧ effRow st m ≤ 200 := by
  unfold effRow
  cases hp : getPtr st.sheetRowPtr m with
  | none => simp [jsOrFour]
  | some v =>
    obtain ⟨-, h4, h200⟩ := h _ (getPtr_mem hp)
    have : v ≠ 0 := by omega
    simp [jsOrFour, this]
    omega

lemma effRow_pos {st : BatchState} (m : String) : effRow st m ≠ 0 := by
  unfold effRow
  cases hp : getPtr st.sheetRowPtr m with
  | none => simp [jsOrFour]
  | some v =>
    by_cases hv : v = 0 <;> simp [jsOrFour, hv]

/-! ### Helper lemmas about the placement computation -/

lemma sliceTo_eq_take (rows : List (List String)) (p : Nat) (hp : p ≤ 200) :
    sliceTo rows ((200 : Int) - ((p + 1 : Nat) : Int) + 1) = rows.take (200 - p) := by
  unfold sliceTo
  rw [if_pos (show (0 : Int) ≤ 200 - ((p + 1 : Nat) : Int) + 1 by omega)]
  have ht : ((200 : Int) - ((p + 1 : Nat) : Int) + 1).toNat = 200 - p := by omega
  rw [ht]

lemma planPlacement_not_trunc (p : Nat) (rows : List (List String))
    (_hne : rows.length ≠ 0) (h : p + rows.length ≤ 200) :
    planPlacement p rows =
      ({ startRow := p, endRow := p + rows.length, truncated := false },
        p + rows.length, rows) := by
  simp only [planPlacement]
  rw [if_neg (show ¬ 200 < p + 1 + rows.length - 1 by omega)]
  have he : p + 1 + rows.length - 1 = p + rows.length := by omega
  rw [he]

lemma planPlacement_trunc (p : Nat) (rows : List (List String))
    (hp : p ≤ 200) (h : 200 < p + rows.length) :
    planPlacement p rows =
      ({ startRow := p, endRow := 200, truncated := true }, 200, rows.take (200 - p)) := by
  have hlen : rows.length ≠ 0 := by omega
  simp only [planPlacement]
  rw [if_pos (show 200 < p + 1 + rows.length - 1 by omega)]
  rw [sliceTo_eq_take rows p hp]
  have he : (if (List.take (200 - p) rows).length = 0 then p
      else p + 1 + (List.take (200 - p) rows).length - 1) = 200 := by
    simp only [List.length_take]
    split <;> omega
  rw [he]

lemma planPlacement_startRow (p : Nat) (rows : List (List String)) :
    (planPlacement p rows).1.startRow = p := by
  by_cases h : 200 < p + 1 + rows.length - 1 <;>
    simp only [planPlacement] <;>
    [rw [if_pos h]; rw [if_neg h]]

lemma planPlacement_bounds (p : Nat) (rows : List (List String))
    (hp4 : 4 ≤ p) (hp : p ≤ 200) (hne : rows.length ≠ 0) :
    p ≤ (planPlacement p rows).2.1 ∧ 4 ≤ (planPlacement p rows).2.1 ∧
    (planPlacement p rows).2.1 ≤ 200 ∧ (planPlacement p rows).1.endRow ≤ 200 := by
  by_cases h : 200 < p + rows.length
  · rw [planPlacement_trunc p rows hp h]
    refine ⟨hp, ?_, le_refl _, le_refl _⟩
    show (4 : Nat) ≤ 200
    omega
  · rw [planPlacement_not_trunc p rows hne (by omega)]
    refine ⟨?_, ?_, ?_, ?_⟩
    · show p ≤ p + rows.length
      omega
    · show 4 ≤ p + rows.length
      omega
    · show p + rows.length ≤ 200
      omega
    · show p + rows.length ≤ 200
      omega

/-! ### Helper lemmas about the file name matcher -/

lemma enaviMatch_some_iff (l ds rest : List Char) :
    enaviMatch l = some (ds, rest) ↔
      (l = 'e' :: 'n' :: 'a' :: 'v' :: 'i' :: (ds ++ '(' :: rest) ∧ ds.length = 6 ∧
        ∀ c ∈ ds, c.isDigit) := by
  constructor
  · intro h
    rcases l with _ | ⟨c1, l⟩
    · simp [enaviMatch] at h
    rcases l with _ | ⟨c2, l⟩
    · simp [enaviMatch] at h
    rcases l with _ | ⟨c3, l⟩
    · simp [enaviMatch] at h
    rcases l with _ | ⟨c4, l⟩
    · simp [enaviMatch] at h
    rcases l with _ | ⟨c5, l⟩
    · simp [enaviMatch] at h
    rcases l with _ | ⟨d1, l⟩
    · simp [enaviMatch] at h
    rcases l with _ | ⟨d2, l⟩
    · simp [enaviMatch] at h
    rcases l with _ | ⟨d3, l⟩
    · simp [enaviMatch] at h
    rcases l with _ | ⟨d4, l⟩
    · simp [enaviMatch] at h
    rcases l with _ | ⟨d5, l⟩
    · simp [enaviMatch] at h
    rcases l with _ | ⟨d6, l⟩
    · simp [enaviMatch] at h
    rcases l with _ | ⟨p, rest'⟩
    · simp [enaviMatch] at h
    simp only [enaviMatch] at h
    split_ifs at h with hc
    · obtain ⟨he, hn, ha, hv, hi, h1, h2, h3, h4, h5, h6, hp⟩ := hc
      subst he hn ha hv hi hp
      obtain ⟨hds, hrest⟩ := by simpa using h
      subst hrest
      refine ⟨by simp [← hds], by simp [← hds], ?_⟩
      intro c hd
      rw [← hds] at hd
      simp at hd
      rcases hd with rfl | rfl | rfl | rfl | rfl | rfl <;> assumption
  · rintro ⟨rfl, hlen, hdig⟩
    rcases ds with _ | ⟨d1, ds⟩
    · simp at hlen
    rcases ds with _ | ⟨d2, ds⟩
    · simp at hlen
    rcases ds with _ | ⟨d3, ds⟩
    · simp at hlen
    rcases ds with _ | ⟨d4, ds⟩
    · simp at hlen
    rcases ds with _ | ⟨d5, ds⟩
    · simp at hlen
    rcases ds with _ | ⟨d6, ds⟩
    · simp at hlen
    rcases ds with _ | ⟨d7, ds⟩
    · have h1 := hdig d1 (by simp)
      have h2 := hdig d2 (by simp)
      have h3 := hdig d3 (by simp)
      have h4 := hdig d4 (by simp)
      have h5 := hdig d5 (by simp)
      have h6 := hdig d6 (by simp)
      simp [enaviMatch, h1, h2, h3, h4, h5, h6]
    · simp at hlen

lemma enaviMatch_none {l : List Char}
    (h : ¬ ∃ ds rest, ds.length = 6 ∧ (∀ c ∈ ds, c.isDigit) ∧
      l = 'e' :: 'n' :: 'a' :: 'v' :: 'i' :: (ds ++ '(' :: rest)) :
    enaviMatch l = none := by
  cases hm : enaviMatch l with
  | none => rfl
  | some pr =>
    obtain ⟨ds, rest⟩ := pr
    obtain ⟨hl, hlen, hdig⟩ := (enaviMatch_some_iff l ds rest).1 hm
    exact absurd ⟨ds, rest, hlen, hdig, hl⟩ h

/-! ### Claims about the Sheet Router -/

/-- Claim C1: for every file name matching the literal prefix enavi
followed by exactly 6 digits and an opening parenthesis (after
case-insensitively stripping a trailing .csv), routing interprets the
first 4 digits as an integer; at least 2000 selects the YYYYMM layout
(month is digits 4..6), otherwise the YYMMDD layout (month is digits
2..4); the result is returned only when the month lies in 1..12, and in
every other case, including non-matching names, routing returns none. -/
theorem route_month_extraction :
    (∀ (name : String) (ds rest : List Char), ds.length = 6 → (∀ c ∈ ds, c.isDigit) →
      stripCsvExt name.toList = 'e' :: 'n' :: 'a' :: 'v' :: 'i' :: (ds ++ '(' :: rest) →
      extractMonthFromFileName name =
        (let m := if 2000 ≤ digitsVal (ds.take 4) then digitsVal (ds.drop 4)
                  else digitsVal ((ds.drop 2).take 2)
         if 1 ≤ m ∧ m ≤ 12 then some (Nat.repr m) else none)) ∧
    (∀ name : String,
      (¬ ∃ ds rest, ds.length = 6 ∧ (∀ c ∈ ds, c.isDigit) ∧
        stripCsvExt name.toList = 'e' :: 'n' :: 'a' :: 'v' :: 'i' :: (ds ++ '(' :: rest)) →
      extractMonthFromFileName name = none) := by
  constructor
  · intro name ds rest hlen hdig hshape
    unfold extractMonthFromFileName
    rw [(enaviMatch_some_iff (stripCsvExt name.toList) ds rest).2 ⟨hshape, hlen, hdig⟩]
    unfold monthFromDigits
    by_cases h4 : 2000 ≤ digitsVal (ds.take 4) <;> simp [h4]
  · intro name hno
    unfold extractMonthFromFileName
    rw [enaviMatch_none hno]

/-- Witness for C1 at the concrete names enavi202506(3034).csv (month 6)
and bogus.csv (no match, hence none). -/
theorem route_month_extraction_witness :
    extractMonthFromFileName "enavi202506(3034).csv" = some "6" ∧
    extractMonthFromFileName "bogus.csv" = none := by
  constructor
  · have h := route_month_extraction.1 "enavi202506(3034).csv"
      ['2', '0', '2', '5', '0', '6'] ['3', '0', '3', '4', ')']
      (by decide) (by decide) (by decide)
    exact h.trans (by decide)
  · refine route_month_extraction.2 "bogus.csv" ?_
    rintro ⟨ds, rest, hlen, -, heq⟩
    rw [show stripCsvExt "bogus.csv".toList = ['b', 'o', 'g', 'u', 's'] from by decide] at heq
    have hlen2 := congrArg List.length heq
    simp [hlen] at hlen2

/-- Claim C10: every routing key produced by month extraction is the
month written in decimal with no leading zero, one of the strings "1"
through "12" (in particular never "06"); and this exact string is what
the importer uses as the destination sheet name, so a workbook offering
only a sheet named "06" is reported as missing the sheet "6". -/
theorem route_key_no_leading_zero :
    (∀ (name : String) (s : String), extractMonthFromFileName name = some s →
      s ∈ ["1", "2", "3", "4", "5", "6", "7", "8", "9", "10", "11", "12"] ∧ s ≠ "06") ∧
    (processFile ["06"] initS { name := "enavi202506(3034).csv", rows := [["h"], ["d"]] }).2 =
      FileOutcome.skipNoSheet "6" ∧
    (processFile ["06"] initS
        { name := "enavi202506(3034).csv", rows := [["h"], ["d"]] }).1.warnings =
      [noSheetMsg "enavi202506(3034).csv" "6"] := by
  refine ⟨?_, by decide, by decide⟩
  intro name s h
  unfold extractMonthFromFileName at h
  cases hm : enaviMatch (stripCsvExt name.toList) with
  | none => rw [hm] at h; exact absurd h (by simp)
  | some pr =>
    obtain ⟨ds, rest⟩ := pr
    rw [hm] at h
    have h' : monthFromDigits ds = some s := h
    simp only [monthFromDigits] at h'
    by_cases h1 : 2000 ≤ digitsVal (ds.take 4)
    · rw [if_pos h1] at h'
      by_cases h2 : 1 ≤ digitsVal (ds.drop 4) ∧ digitsVal (ds.drop 4) ≤ 12
      · rw [if_pos h2] at h'
        obtain ⟨hlo, hhi⟩ := h2
        obtain rfl : Nat.repr (digitsVal (ds.drop 4)) = s := by simpa using h'
        set m := digitsVal (ds.drop 4) with hm'
        clear_value m
        interval_cases m <;> decide
      · rw [if_neg h2] at h'
        exact absurd h' (by simp)
    · rw [if_neg h1] at h'
      by_cases h3 : 1 ≤ digitsVal ((ds.drop 2).take 2) ∧ digitsVal ((ds.drop 2).take 2) ≤ 12
      · rw [if_pos h3] at h'
        obtain ⟨hlo, hhi⟩ := h3
        obtain rfl : Nat.repr (digitsVal ((ds.drop 2).take 2)) = s := by simpa using h'
        set m := digitsVal ((ds.drop 2).take 2) with hm'
        clear_value m
        interval_cases m <;> decide
      · rw [if_neg h3] at h'
        exact absurd h' (by simp)

/-- Witness for C10 at a concrete routed name. -/
theorem route_key_no_leading_zero_witness :
    ("6" : String) ∈ ["1", "2", "3", "4", "5", "6", "7", "8", "9", "10", "11", "12"] ∧
    ("6" : String) ≠ "06" :=
  route_key_no_leading_zero.1 "enavi202506(3034).csv" "6" (by decide)

/-! ### Claims about the Encoding Resolver -/

lemma utf8Go_agree : ∀ (fuel : Nat) (l cps : List Nat),
    utf8StrictGo fuel l = some cps → utf8LenientGo fuel l = cps := by
  intro fuel
  induction fuel with
  | zero =>
    intro l cps h
    cases l with
    | nil =>
      simp [utf8StrictGo] at h
      simp [utf8LenientGo, ← h]
    | cons b rest => simp [utf8StrictGo] at h
  | succ n ih =>
    intro l cps h
    cases l with
    | nil =>
      simp [utf8StrictGo] at h
      simp [utf8LenientGo, ← h]
    | cons b rest =>
      simp only [utf8StrictGo] at h
      simp only [utf8LenientGo]
      cases hs : utf8Step b rest with
      | mk o k =>
        rw [hs] at h
        cases o with
        | none => exact absurd h (by simp)
        | some cp =>
          simp only at h
          cases hr : utf8StrictGo n (rest.drop k) with
          | none => rw [hr] at h; exact absurd h (by simp)
          | some cps' =>
            rw [hr] at h
            simp only at h
            injection h with h2
            subst h2
            exact congrArg (fun x => cp :: x) (ih (rest.drop k) cps' hr)

lemma utf8Strict_lenient {l cps : List Nat} (h : utf8StrictDecode l = some cps) :
    utf8Lenient l = cps :=
  utf8Go_agree l.length l cps h

/-- Claim C6: on bytes without a byte order mark that are not strict
utf-8, the resolver falls back to the legacy Shift-JIS decode and labels
the result SJIS (the legacy double-byte encoding); when the legacy decode
itself fails, the second importer variant surfaces a terminal error
carrying the encoding-detection-failure message instead of returning
text, while readCsvFile lets the failure propagate unchanged. -/
theorem resolve_sjis_fallback (sjis : List Nat → Except String (List Nat)) (bytes : List Nat)
    (hB : hasBOM bytes = false) (hU : utf8StrictDecode bytes = none) :
    (∀ t, sjis bytes = Except.ok t →
      resolveBytes sjis bytes = Except.ok (t, "SJIS") ∧
      readCsvFileModel sjis bytes = Except.ok (t, "SJIS")) ∧
    (∀ e, sjis bytes = Except.error e →
      resolveBytes sjis bytes = Except.error (encFailMsg e) ∧
      readCsvFileModel sjis bytes = Except.error e ∧
      ∀ r, resolveBytes sjis bytes ≠ Except.ok r) := by
  have hFatal : textDecodeFatalJS bytes = none := by
    unfold textDecodeFatalJS
    rw [if_neg (by simp [hB]), hU]
  constructor
  · intro t ht
    unfold resolveBytes readCsvFileModel
    rw [if_neg (by simp [hB]), if_neg (by simp [hB]), hFatal, ht]
    exact ⟨rfl, rfl⟩
  · intro e he
    unfold resolveBytes readCsvFileModel
    rw [if_neg (by simp [hB]), if_neg (by simp [hB]), hFatal, he]
    exact ⟨rfl, rfl, by simp⟩

/-- Witness for C6: the lone continuation byte 0x80 is not strict utf-8
and has no byte order mark; a succeeding abstract legacy decode yields
the SJIS-labelled result, and a failing one yields the encoding-detection
error. -/
theorem resolve_sjis_fallback_witness :
    (resolveBytes (fun _ => Except.ok [0x3042]) [0x80] = Except.ok ([0x3042], "SJIS") ∧
      readCsvFileModel (fun _ => Except.ok [0x3042]) [0x80] = Except.ok ([0x3042], "SJIS")) ∧
    (resolveBytes (fun _ => Except.error "boom") [0x80] = Except.error (encFailMsg "boom") ∧
      readCsvFileModel (fun _ => Except.error "boom") [0x80] = Except.error "boom") := by
  constructor
  · exact (resolve_sjis_fallback (fun _ => Except.ok [0x3042]) [0x80]
      (by decide) (by decide)).1 [0x3042] rfl
  · have h := (resolve_sjis_fallback (fun _ => Except.error "boom") [0x80]
      (by decide) (by decide)).2 "boom" rfl
    exact ⟨h.1, h.2.1⟩

/-- Counterexample to claim C7 as stated: after the byte order mark
EF BB BF, the remaining byte 0x80 is not valid utf-8, yet both resolver
variants succeed with encoding UTF-8 and the replacement character U+FFFD
in the text instead of failing loudly, because the byte-order-mark branch
uses a decoder without the fatal flag. -/
theorem bom_branch_not_strict_counterexample :
    utf8StrictDecode [0x80] = none ∧
    resolveBytes (fun _ => Except.error "") [0xEF, 0xBB, 0xBF, 0x80] =
      Except.ok ([0xFFFD], "UTF-8") ∧
    readCsvFileModel (fun _ => Except.error "") [0xEF, 0xBB, 0xBF, 0x80] =
      Except.ok ([0xFFFD], "UTF-8") := by
  refine ⟨by decide, by decide, by decide⟩

/-- Claim C7 as amended: on bytes beginning with the three-byte utf-8
byte order mark, the resolver strips exactly those 3 leading bytes,
decodes the remainder with the platform utf-8 decoder in replacement
mode (ill-formed sequences become U+FFFD rather than an error, and one
further leading byte order mark in the remainder would also be consumed
by the decoder), and reports encoding UTF-8; in particular, when the
remainder is valid utf-8 and not itself byte-order-mark-prefixed, the
reported text is exactly its strict utf-8 decoding. -/
theorem bom_branch_amended (sjis : List Nat → Except String (List Nat)) (bytes : List Nat)
    (hB : hasBOM bytes = true) :
    resolveBytes sjis bytes = Except.ok (textDecodeJS (bytes.drop 3), "UTF-8") ∧
    readCsvFileModel sjis bytes = Except.ok (textDecodeJS (bytes.drop 3), "UTF-8") ∧
    (∀ t, hasBOM (bytes.drop 3) = false → utf8StrictDecode (bytes.drop 3) = some t →
      resolveBytes sjis bytes = Except.ok (t, "UTF-8") ∧
      readCsvFileModel sjis bytes = Except.ok (t, "UTF-8")) := by
  refine ⟨?_, ?_, ?_⟩
  · unfold resolveBytes
    rw [if_pos (by simp [hB])]
  · unfold readCsvFileModel
    rw [if_pos (by simp [hB])]
  · intro t hB3 ht
    have htext : textDecodeJS (bytes.drop 3) = t := by
      unfold textDecodeJS
      rw [if_neg (by simp [hB3])]
      exact utf8Strict_lenient ht
    unfold resolveBytes readCsvFileModel
    rw [if_pos (by simp [hB]), if_pos (by simp [hB]), htext]
    exact ⟨rfl, rfl⟩

/-- Witness for the amended C7 at the bytes EF BB BF 41: exactly the
3 byte-order-mark bytes are stripped and the single letter A remains. -/
theorem bom_branch_amended_witness :
    resolveBytes (fun _ => Except.error "") [0xEF, 0xBB, 0xBF, 0x41] =
      Except.ok ([0x41], "UTF-8") ∧
    readCsvFileModel (fun _ => Except.error "") [0xEF, 0xBB, 0xBF, 0x41] =
      Except.ok ([0x41], "UTF-8") :=
  (bom_branch_amended (fun _ => Except.error "") [0xEF, 0xBB, 0xBF, 0x41] (by decide)).2.2
    [0x41] (by decide) (by decide)

/-! ### Helper lemmas about the batch loop -/

lemma clearStage_of_mem {st : BatchState} {month : String}
    (hc : month ∈ st.sheetCleared) : clearStage st month = st := by
  simp [clearStage, hc]

lemma clearStage_of_not_mem {st : BatchState} {month : String}
    (hc : month ∉ st.sheetCleared) :
    clearStage st month =
      { st with
        actions := st.actions ++ [WriteAction.clearRange month],
        sheetCleared := month :: st.sheetCleared,
        sheetRowPtr := setPtr st.sheetRowPtr month 4 } := by
  simp [clearStage, hc]

lemma clearStage_mem_self (st : BatchState) (month : String) :
    month ∈ (clearStage st month).sheetCleared := by
  by_cases hc : month ∈ st.sheetCleared
  · rw [clearStage_of_mem hc]; exact hc
  · rw [clearStage_of_not_mem hc]; exact List.mem_cons_self _ _

lemma clearStage_mem_mono {st : BatchState} {month m : String}
    (h : m ∈ st.sheetCleared) : m ∈ (clearStage st month).sheetCleared := by
  by_cases hc : month ∈ st.sheetCleared
  · rw [clearStage_of_mem hc]; exact h
  · rw [clearStage_of_not_mem hc]; exact List.mem_cons_of_mem _ h

lemma clearStage_warnings (st : BatchState) (month : String) :
    (clearStage st month).warnings = st.warnings := by
  by_cases hc : month ∈ st.sheetCleared
  · rw [clearStage_of_mem hc]
  · rw [clearStage_of_not_mem hc]

lemma clearStage_actions (st : BatchState) (month : String) :
    ∃ a, (clearStage st month).actions = st.actions ++ a := by
  by_cases hc : month ∈ st.sheetCleared
  · rw [clearStage_of_mem hc]; exact ⟨[], by simp⟩
  · rw [clearStage_of_not_mem hc]; exact ⟨[WriteAction.clearRange month], rfl⟩

lemma invS_clearStage {st : BatchState} (h : InvS st) (month : String) :
    InvS (clearStage st month) := by
  by_cases hc : month ∈ st.sheetCleared
  · rw [clearStage_of_mem hc]; exact h
  · rw [clearStage_of_not_mem hc]
    intro e he
    have he' : e ∈ setPtr st.sheetRowPtr month 4 := he
    rcases mem_setPtr he' with rfl | he''
    · exact ⟨List.mem_cons_self _ _, by norm_num, by norm_num⟩
    · obtain ⟨h1, h2, h3⟩ := h e he''
      exact ⟨List.mem_cons_of_mem _ h1, h2, h3⟩

lemma effRow_clearStage {st : BatchState} (h : InvS st) (month m : String) :
    effRow (clearStage st month) m = effRow st m := by
  by_cases hc : month ∈ st.sheetCleared
  · rw [clearStage_of_mem hc]
  · rw [clearStage_of_not_mem hc]
    show jsOrFour (getPtr (setPtr st.sheetRowPtr month 4) m) = effRow st m
    rw [getPtr_setPtr]
    by_cases hm : month = m
    · subst hm
      rw [if_pos rfl]
      cases hp : getPtr st.sheetRowPtr month with
      | none => simp [effRow, jsOrFour, hp]
      | some v => exact absurd (h _ (getPtr_mem hp)).1 hc
    · rw [if_neg hm]; rfl

lemma writeStage_empty {st : BatchState} {f : CsvFile} {month : String}
    (h0 : f.rows.length = 0) :
    writeStage st f month = (warnSt st (emptyMsg f.name), FileOutcome.skipEmpty month) := by
  simp only [writeStage]
  rw [if_pos h0]

lemma writeStage_noData {st : BatchState} {f : CsvFile} {month : String}
    (h1 : f.rows.length = 1) :
    writeStage st f month = (warnSt st (noDataMsg f.name), FileOutcome.skipNoData month) := by
  simp only [writeStage]
  rw [if_neg (by omega : ¬ f.rows.length = 0), if_neg (by omega : ¬ 2 ≤ f.rows.length),
    if_pos (show (List.length ([] : List (List String))) = 0 from rfl)]

lemma writeStage_write {st : BatchState} {f : CsvFile} {month : String}
    (h2 : 2 ≤ f.rows.length) :
    writeStage st f month =
      ({ st with
          warnings := st.warnings ++
            (if (planPlacement (effRow st month) ((f.rows.drop 1).map normalize12)).1.truncated
             then [truncMsg f.name] else []),
          actions := st.actions ++
            ([WriteAction.writeFileName month (effRow st month) f.name] ++
             (if (planPlacement (effRow st month) ((f.rows.drop 1).map normalize12)).2.2.length = 0
              then []
              else [WriteAction.writeData month (effRow st month + 1)
                (effRow st month + 1 +
                  (planPlacement (effRow st month)
                    ((f.rows.drop 1).map normalize12)).2.2.length - 1)
                (planPlacement (effRow st month) ((f.rows.drop 1).map normalize12)).2.2])),
          sheetRowPtr := setPtr st.sheetRowPtr month
            (planPlacement (effRow st month) ((f.rows.drop 1).map normalize12)).2.1 },
       FileOutcome.written month
        (planPlacement (effRow st month) ((f.rows.drop 1).map normalize12)).1) := by
  simp only [writeStage]
  rw [if_neg (by omega : ¬ f.rows.length = 0), if_pos h2,
    if_neg (show ¬ (f.rows.drop 1).length = 0 by rw [List.length_drop]; omega)]

lemma processFile_route_none {sheets : List String} {st : BatchState} {f : CsvFile}
    (hE : extractMonthFromFileName f.name = none) :
    processFile sheets st f = (warnSt st (noMonthMsg f.name), FileOutcome.skipNoMonth) := by
  unfold processFile
  rw [hE]

lemma processFile_no_sheet {sheets : List String} {st : BatchState} {f : CsvFile}
    {month : String} (hE : extractMonthFromFileName f.name = some month)
    (hS : month ∉ sheets) :
    processFile sheets st f =
      (warnSt st (noSheetMsg f.name month), FileOutcome.skipNoSheet month) := by
  unfold processFile
  rw [hE]
  show (if month ∈ sheets then _ else _) = _
  rw [if_neg hS]

lemma processFile_route_some {sheets : List String} {st : BatchState} {f : CsvFile}
    {month : String} (hE : extractMonthFromFileName f.name = some month)
    (hS : month ∈ sheets) :
    processFile sheets st f = writeStage (clearStage st month) f month := by
  unfold processFile
  rw [hE]
  show (if month ∈ sheets then _ else _) = _
  rw [if_pos hS]

lemma stepB_spec (sheets : List String) (st : BatchState) (f : CsvFile) (h : InvS st) :
    InvS (stepB sheets st f) ∧
    (∀ m, effRow st m ≤ effRow (stepB sheets st f) m) ∧
    (∀ m, m ∈ st.sheetCleared → m ∈ (stepB sheets st f).sheetCleared) ∧
    (∃ w, (stepB sheets st f).warnings = st.warnings ++ w ∧
      ∀ x ∈ w, ∃ t, x = fileMsg f.name t) ∧
    (∃ a, (stepB sheets st f).actions = st.actions ++ a) := by
  unfold stepB
  cases hE : extractMonthFromFileName f.name with
  | none =>
    rw [processFile_route_none hE]
    refine ⟨fun e he => h e he, fun m => le_refl _, fun m hm => hm, ?_, ⟨[], by simp [warnSt]⟩⟩
    exact ⟨[noMonthMsg f.name], rfl, fun x hx => by
      simp at hx
      exact ⟨"月を抽出できませんでした", by rw [hx]; rfl⟩⟩
  | some month =>
    by_cases hS : month ∈ sheets
    · rw [processFile_route_some hE hS]
      have hInv1 : InvS (clearStage st month) := invS_clearStage h month
      have hEff1 : ∀ m, effRow (clearStage st month) m = effRow st m :=
        effRow_clearStage h month
      have hClr1 : ∀ m, m ∈ st.sheetCleared → m ∈ (clearStage st month).sheetCleared :=
        fun m => clearStage_mem_mono
      have hW1 : (clearStage st month).warnings = st.warnings := clearStage_warnings st month
      obtain ⟨a1, hA1⟩ := clearStage_actions st month
      rcases Nat.lt_or_ge f.rows.length 2 with hlen | hlen
      · rcases (by omega : f.rows.length = 0 ∨ f.rows.length = 1) with h0 | h1
        · rw [writeStage_empty h0]
          refine ⟨fun e he => hInv1 e he, fun m => by rw [show effRow (warnSt (clearStage st month) (emptyMsg f.name)) m = effRow (clearStage st month) m from rfl, hEff1], fun m hm => hClr1 m hm, ?_, ⟨a1, hA1⟩⟩
          exact ⟨[emptyMsg f.name], by simp [warnSt, hW1], fun x hx => by
            simp at hx
            exact ⟨"CSVファイルが空です", by rw [hx]; rfl⟩⟩
        · rw [writeStage_noData h1]
          refine ⟨fun e he => hInv1 e he, fun m => by rw [show effRow (warnSt (clearStage st month) (noDataMsg f.name)) m = effRow (clearStage st month) m from rfl, hEff1], fun m hm => hClr1 m hm, ?_, ⟨a1, hA1⟩⟩
          exact ⟨[noDataMsg f.name], by simp [warnSt, hW1], fun x hx => by
            simp at hx
            exact ⟨"データ行がありません", by rw [hx]; rfl⟩⟩
      · rw [writeStage_write hlen]
        set st1 := clearStage st month with hst1
        set p := effRow st1 month with hp
        set rows1 := (f.rows.drop 1).map normalize12 with hrows1
        have hp4 : 4 ≤ p ∧ p ≤ 200 := effRow_bounds hInv1 month
        have hne : rows1.length ≠ 0 := by
          rw [hrows1]
          simp only [List.length_map, List.length_drop]
          omega
        obtain ⟨hq1, hq2, hq3, hq4⟩ :=
          planPlacement_bounds p rows1 hp4.1 hp4.2 hne
        refine ⟨?_, ?_, ?_, ?_, ?_⟩
        · intro e he
          have he' : e ∈ setPtr st1.sheetRowPtr month (planPlacement p rows1).2.1 := he
          rcases mem_setPtr he' with rfl | he''
          · exact ⟨clearStage_mem_self st month, hq2, hq3⟩
          · exact hInv1 e he''
        · intro m
          show effRow st m ≤ jsOrFour (getPtr (setPtr st1.sheetRowPtr month
            (planPlacement p rows1).2.1) m)
          rw [getPtr_setPtr]
          by_cases hm : month = m
          · subst hm
            rw [if_pos rfl]
            have : jsOrFour (some (planPlacement p rows1).2.1) = (planPlacement p rows1).2.1 := by
              simp [jsOrFour]
              omega
            rw [this, ← hEff1 month]
            exact le_trans (le_of_eq rfl) hq1
          · rw [if_neg hm]
            rw [show jsOrFour (getPtr st1.sheetRowPtr m) = effRow st1 m from rfl, hEff1]
        · intro m hm
          exact hClr1 m hm
        · refine ⟨if (planPlacement p rows1).1.truncated then [truncMsg f.name] else [], ?_, ?_⟩
          · show st1.warnings ++ _ = st.warnings ++ _
            rw [hW1]
          · intro x hx
            split_ifs at hx with ht
            · simp at hx
              exact ⟨"L200を超える分は切り捨てられました", by rw [hx]; rfl⟩
            · simp at hx
        · refine ⟨a1 ++ ([WriteAction.writeFileName month p f.name] ++
            (if (planPlacement p rows1).2.2.length = 0 then []
             else [WriteAction.writeData month (p + 1)
                (p + 1 + (planPlacement p rows1).2.2.length - 1)
                (planPlacement p rows1).2.2])), ?_⟩
          show st1.actions ++ _ = st.actions ++ _
          rw [hA1, List.append_assoc]
    · rw [processFile_no_sheet hE hS]
      refine ⟨fun e he => h e he, fun m => le_refl _, fun m hm => hm, ?_, ⟨[], by simp [warnSt]⟩⟩
      exact ⟨[noSheetMsg f.name month], rfl, fun x hx => by
        simp at hx
        exact ⟨"該当シート「" ++ month ++ "」が存在しません", by rw [hx]; rfl⟩⟩

lemma runBatchFrom_spec (sheets : List String) (files : List CsvFile) :
    ∀ st : BatchState, InvS st →
    InvS (runBatchFrom sheets st files) ∧
    (∀ m, effRow st m ≤ effRow (runBatchFrom sheets st files) m) ∧
    (∀ m, m ∈ st.sheetCleared → m ∈ (runBatchFrom sheets st files).sheetCleared) ∧
    (∃ w, (runBatchFrom sheets st files).warnings = st.warnings ++ w ∧
      ∀ x ∈ w, ∃ f ∈ files, ∃ t, x = fileMsg f.name t) ∧
    (∃ a, (runBatchFrom sheets st files).actions = st.actions ++ a) := by
  induction files with
  | nil =>
    intro st h
    exact ⟨h, fun m => le_refl _, fun m hm => hm,
      ⟨[], by simp [runBatchFrom], by simp⟩, ⟨[], by simp [runBatchFrom]⟩⟩
  | cons f fs ih =>
    intro st h
    obtain ⟨h1, h2, h3, ⟨w1, hw1, hw1p⟩, ⟨a1, ha1⟩⟩ := stepB_spec sheets st f h
    obtain ⟨g1, g2, g3, ⟨w2, hw2, hw2p⟩, ⟨a2, ha2⟩⟩ := ih (stepB sheets st f) h1
    have hfold : runBatchFrom sheets st (f :: fs) =
        runBatchFrom sheets (stepB sheets st f) fs := rfl
    rw [hfold]
    refine ⟨g1, fun m => le_trans (h2 m) (g2 m), fun m hm => g3 m (h3 m hm),
      ⟨w1 ++ w2, by rw [hw2, hw1, List.append_assoc], ?_⟩,
      ⟨a1 ++ a2, by rw [ha2, ha1, List.append_assoc]⟩⟩
    intro x hx
    rcases List.mem_append.mp hx with hx | hx
    · obtain ⟨t, ht⟩ := hw1p x hx
      exact ⟨f, by simp, t, ht⟩
    · obtain ⟨f', hf', t, ht⟩ := hw2p x hx
      exact ⟨f', by simp [hf'], t, ht⟩

lemma invS_runBatch (sheets : List String) (files : List CsvFile) :
    InvS (runBatch sheets files) :=
  (runBatchFrom_spec sheets files initS invS_initS).1

/-! ### Claims about the batch loop -/

/-- Claim C8: within a batch, for every routing key the effective write
cursor is monotonically non-decreasing as more files are processed, and
once the cleared flag of a key is set it remains set for the rest of the
batch (stated over an arbitrary batch prefix and its extension). -/
theorem cursor_monotone_cleared_persistent (sheets : List String)
    (files extra : List CsvFile) (m : String) :
    effRow (runBatch sheets files) m ≤ effRow (runBatch sheets (files ++ extra)) m ∧
    (m ∈ (runBatch sheets files).sheetCleared →
      m ∈ (runBatch sheets (files ++ extra)).sheetCleared) := by
  have hsplit : runBatch sheets (files ++ extra) =
      runBatchFrom sheets (runBatch sheets files) extra := by
    unfold runBatch runBatchFrom
    rw [List.foldl_append]
  rw [hsplit]
  have h := runBatchFrom_spec sheets extra (runBatch sheets files) (invS_runBatch sheets files)
  exact ⟨h.2.1 m, h.2.2.1 m⟩

/-- Witness for C8 at a concrete two-file batch on sheet 6: the cursor
does not decrease and the cleared flag persists after the second file. -/
theorem cursor_monotone_cleared_persistent_witness :
    effRow (runBatch ["6"] [{ name := "enavi202506(1111).csv", rows := [["h"], ["a"]] }]) "6" ≤
      effRow (runBatch ["6"] ([{ name := "enavi202506(1111).csv", rows := [["h"], ["a"]] }] ++
        [{ name := "enavi202506(2222).csv", rows := [["h"], ["b"], ["c"]] }])) "6" ∧
    "6" ∈ (runBatch ["6"] ([{ name := "enavi202506(1111).csv", rows := [["h"], ["a"]] }] ++
      [{ name := "enavi202506(2222).csv", rows := [["h"], ["b"], ["c"]] }])).sheetCleared := by
  have h := cursor_monotone_cleared_persistent ["6"]
    [{ name := "enavi202506(1111).csv", rows := [["h"], ["a"]] }]
    [{ name := "enavi202506(2222).csv", rows := [["h"], ["b"], ["c"]] }] "6"
  exact ⟨h.1, h.2 (by decide)⟩

/-- Claim C5: per-file failures are recorded as warnings that always name
the failing file, in file order; after all files are attempted the batch
call succeeds exactly when the warning list is empty, and otherwise fails
with one aggregate error listing every warning, one per line; in the
concrete three-file batch where only the second file fails routing, the
first and third files are still written and the aggregate error carries
only the warning naming the second file. -/
theorem batch_error_aggregation :
    (∀ (sheets : List String) (st : BatchState) (f : CsvFile), InvS st →
      ∃ w, (stepB sheets st f).warnings = st.warnings ++ w ∧
        ∀ x ∈ w, ∃ t, x = fileMsg f.name t) ∧
    (∀ (sheets : List String) (files : List CsvFile),
      (importCsvQuickModel sheets files = Except.ok () ↔
        (runBatch sheets files).warnings = [])) ∧
    (∀ (sheets : List String) (files : List CsvFile),
      (runBatch sheets files).warnings ≠ [] →
      importCsvQuickModel sheets files =
        Except.error ("CSVのインポートに失敗しました: 以下の警告がありました:\n" ++
          String.intercalate "\n" (runBatch sheets files).warnings)) ∧
    (runBatch ["6", "7"] csvBatchExample).actions =
      [WriteAction.clearRange "6",
       WriteAction.writeFileName "6" 4 "enavi202506(1111).csv",
       WriteAction.writeData "6" 5 5 [normalize12 ["a"]],
       WriteAction.clearRange "7",
       WriteAction.writeFileName "7" 4 "enavi202507(2222).csv",
       WriteAction.writeData "7" 5 5 [normalize12 ["c"]]] ∧
    importCsvQuickModel ["6", "7"] csvBatchExample =
      Except.error ("CSVのインポートに失敗しました: 以下の警告がありました:\n" ++
        noMonthMsg "bogus.csv") := by
  refine ⟨?_, ?_, ?_, by decide, by decide⟩
  · intro sheets st f h
    exact (stepB_spec sheets st f h).2.2.2.1
  · intro sheets files
    unfold importCsvQuickModel
    by_cases hw : (runBatch sheets files).warnings = [] <;> simp [hw]
  · intro sheets files hw
    unfold importCsvQuickModel
    rw [if_neg hw]

/-- Witness for C5: an all-good batch succeeds; a batch with a routing
failure fails with the aggregate message. -/
theorem batch_error_aggregation_witness :
    importCsvQuickModel ["6"]
      [{ name := "enavi202506(1111).csv", rows := [["h"], ["a"]] }] = Except.ok () ∧
    importCsvQuickModel ["6"] [{ name := "bogus.csv", rows := [] }] =
      Except.error ("CSVのインポートに失敗しました: 以下の警告がありました:\n" ++
        String.intercalate "\n"
          (runBatch ["6"] [{ name := "bogus.csv", rows := [] }]).warnings) := by
  constructor
  · exact (batch_error_aggregation.2.1 ["6"]
      [{ name := "enavi202506(1111).csv", rows := [["h"], ["a"]] }]).2 (by decide)
  · exact batch_error_aggregation.2.2.1 ["6"] [{ name := "bogus.csv", rows := [] }] (by decide)

/-- Counterexample to claim C2 as stated: on a fresh key with a header
plus exactly 5 data rows the plan is startRow 4, endRow 9 (the last
written data row), truncated false, and never endRow 10. -/
theorem fresh_key_placement_counterexample :
    (processFile ["6"] initS
      { name := "enavi202506(3034).csv",
        rows := [["h"], ["1"], ["2"], ["3"], ["4"], ["5"]] }).2 ≠
      FileOutcome.written "6" { startRow := 4, endRow := 10, truncated := false } ∧
    (processFile ["6"] initS
      { name := "enavi202506(3034).csv",
        rows := [["h"], ["1"], ["2"], ["3"], ["4"], ["5"]] }).2 =
      FileOutcome.written "6" { startRow := 4, endRow := 9, truncated := false } := by
  exact ⟨by decide, by decide⟩

/-- Claim C2 as amended: on a routing key not seen before in the batch,
a table with a header and exactly 5 data rows is placed with the file
marker at row 4 and the data at rows 5 through 9; the plan is startRow 4,
endRow 9 (the last written row; the claim said 10), truncated false, and
the cursor for the key becomes 9. -/
theorem fresh_key_placement (sheets : List String) (st : BatchState) (f : CsvFile)
    (month : String) (hE : extractMonthFromFileName f.name = some month)
    (hS : month ∈ sheets) (hC : month ∉ st.sheetCleared) (hlen : f.rows.length = 6) :
    (processFile sheets st f).2 =
      FileOutcome.written month { startRow := 4, endRow := 9, truncated := false } ∧
    getPtr (processFile sheets st f).1.sheetRowPtr month = some 9 ∧
    (processFile sheets st f).1.actions =
      st.actions ++ [WriteAction.clearRange month,
        WriteAction.writeFileName month 4 f.name,
        WriteAction.writeData month 5 9 ((f.rows.drop 1).map normalize12)] ∧
    (processFile sheets st f).1.warnings = st.warnings := by
  have hEff : effRow (clearStage st month) month = 4 := by
    rw [clearStage_of_not_mem hC]
    show jsOrFour (getPtr (setPtr st.sheetRowPtr month 4) month) = 4
    rw [getPtr_setPtr, if_pos rfl]
    rfl
  have h5 : ((f.rows.drop 1).map normalize12).length = 5 := by
    simp [hlen]
  have hplan : planPlacement 4 ((f.rows.drop 1).map normalize12) =
      ({ startRow := 4, endRow := 9, truncated := false }, 9,
        (f.rows.drop 1).map normalize12) := by
    rw [planPlacement_not_trunc _ _ (by omega) (by omega), h5]
  rw [processFile_route_some hE hS, writeStage_write (by omega), hEff, hplan]
  refine ⟨rfl, ?_, ?_, ?_⟩
  · show getPtr (setPtr (clearStage st month).sheetRowPtr month 9) month = some 9
    rw [getPtr_setPtr, if_pos rfl]
  · show (clearStage st month).actions ++
      ([WriteAction.writeFileName month 4 f.name] ++
        (if ((f.rows.drop 1).map normalize12).length = 0 then []
         else [WriteAction.writeData month (4 + 1)
            (4 + 1 + ((f.rows.drop 1).map normalize12).length - 1)
            ((f.rows.drop 1).map normalize12)])) = _
    rw [clearStage_of_not_mem hC, if_neg (by omega), h5]
    simp
  · show (clearStage st month).warnings ++ (if false = true then [truncMsg f.name] else []) =
      st.warnings
    rw [clearStage_warnings]
    simp

/-- Witness for the amended C2 at a concrete fresh-key file. -/
theorem fresh_key_placement_witness :
    (processFile ["6"] initS
      { name := "enavi202506(3034).csv",
        rows := [["h"], ["1"], ["2"], ["3"], ["4"], ["5"]] }).2 =
      FileOutcome.written "6" { startRow := 4, endRow := 9, truncated := false } ∧
    getPtr (processFile ["6"] initS
      { name := "enavi202506(3034).csv",
        rows := [["h"], ["1"], ["2"], ["3"], ["4"], ["5"]] }).1.sheetRowPtr "6" = some 9 ∧
    (processFile ["6"] initS
      { name := "enavi202506(3034).csv",
        rows := [["h"], ["1"], ["2"], ["3"], ["4"], ["5"]] }).1.actions =
      initS.actions ++ [WriteAction.clearRange "6",
        WriteAction.writeFileName "6" 4 "enavi202506(3034).csv",
        WriteAction.writeData "6" 5 9
          ((({ name := "enavi202506(3034).csv",
               rows := [["h"], ["1"], ["2"], ["3"], ["4"], ["5"]] } : CsvFile).rows.drop 1).map
            normalize12)] ∧
    (processFile ["6"] initS
      { name := "enavi202506(3034).csv",
        rows := [["h"], ["1"], ["2"], ["3"], ["4"], ["5"]] }).1.warnings = initS.warnings :=
  fresh_key_placement ["6"] initS
    { name := "enavi202506(3034).csv", rows := [["h"], ["1"], ["2"], ["3"], ["4"], ["5"]] }
    "6" (by decide) (by decide) (by decide) (by decide)

/-- Claim C3: whenever the computed data end row would pass the capacity
bound 200, the plan is truncated so that its end row is exactly 200, the
updated cursor is exactly 200 (never beyond), a truncation warning naming
the file is recorded on the write path, and in general the plan end row
and the cursor never exceed 200 (row pointers reachable in a batch always
lie in 4..200, discharging the bound hypotheses). -/
theorem truncation_at_capacity :
    (∀ (p : Nat) (rows : List (List String)), 4 ≤ p → p ≤ 200 →
      rows.length ≠ 0 → 200 < p + rows.length →
      planPlacement p rows =
        ({ startRow := p, endRow := 200, truncated := true }, 200, rows.take (200 - p))) ∧
    (∀ (p : Nat) (rows : List (List String)), 4 ≤ p → p ≤ 200 → rows.length ≠ 0 →
      (planPlacement p rows).1.endRow ≤ 200 ∧ (planPlacement p rows).2.1 ≤ 200) ∧
    (∀ (sheets : List String) (files : List CsvFile) (m : String) (v : Nat),
      getPtr (runBatch sheets files).sheetRowPtr m = some v → 4 ≤ v ∧ v ≤ 200) ∧
    (∀ (sheets : List String) (st : BatchState) (f : CsvFile) (month : String) (p : Nat),
      InvS st → extractMonthFromFileName f.name = some month → month ∈ sheets →
      month ∈ st.sheetCleared → getPtr st.sheetRowPtr month = some p →
      2 ≤ f.rows.length → 200 < p + (f.rows.length - 1) →
      (processFile sheets st f).1.warnings = st.warnings ++ [truncMsg f.name] ∧
      getPtr (processFile sheets st f).1.sheetRowPtr month = some 200 ∧
      (processFile sheets st f).2 = FileOutcome.written month
        { startRow := p, endRow := 200, truncated := true }) := by
  refine ⟨?_, ?_, ?_, ?_⟩
  · intro p rows h4 h200 hne hover
    exact planPlacement_trunc p rows h200 hover
  · intro p rows h4 h200 hne
    obtain ⟨-, -, hq, he⟩ := planPlacement_bounds p rows h4 h200 hne
    exact ⟨he, hq⟩
  · intro sheets files m v hv
    exact ((invS_runBatch sheets files) _ (getPtr_mem hv)).2
  · intro sheets st f month p hInv hE hS hC hP hlen hover
    obtain ⟨-, hp4, hp200⟩ := hInv _ (getPtr_mem hP)
    have hEff : effRow (clearStage st month) month = p := by
      rw [clearStage_of_mem hC]
      show jsOrFour (getPtr st.sheetRowPtr month) = p
      rw [hP]
      simp [jsOrFour]
      omega
    have hlen1 : ((f.rows.drop 1).map normalize12).length = f.rows.length - 1 := by
      simp
    have hplan : planPlacement p ((f.rows.drop 1).map normalize12) =
        ({ startRow := p, endRow := 200, truncated := true }, 200,
          ((f.rows.drop 1).map normalize12).take (200 - p)) := by
      apply planPlacement_trunc p _ hp200
      omega
    rw [processFile_route_some hE hS, writeStage_write hlen, hEff, hplan]
    refine ⟨?_, ?_, rfl⟩
    · show (clearStage st month).warnings ++ (if true = true then [truncMsg f.name] else []) =
        st.warnings ++ [truncMsg f.name]
      rw [clearStage_warnings]
      simp
    · show getPtr (setPtr (clearStage st month).sheetRowPtr month 200) month = some 200
      rw [getPtr_setPtr, if_pos rfl]

/-- Witness for C3: cursor 199 with 3 data rows overflows; the plan ends
exactly at 200 and the cursor lands on 200 with the truncation warning. -/
theorem truncation_at_capacity_witness :
    planPlacement 199 [["a"], ["b"], ["c"]] =
      ({ startRow := 199, endRow := 200, truncated := true }, 200,
        [["a"], ["b"], ["c"]].take (200 - 199)) ∧
    (planPlacement 199 [["a"], ["b"], ["c"]]).1.endRow ≤ 200 ∧
    (planPlacement 199 [["a"], ["b"], ["c"]]).2.1 ≤ 200 := by
  have h1 := truncation_at_capacity.1 199 [["a"], ["b"], ["c"]]
    (by decide) (by decide) (by decide) (by decide)
  have h2 := truncation_at_capacity.2.1 199 [["a"], ["b"], ["c"]]
    (by decide) (by decide) (by decide)
  exact ⟨h1, h2.1, h2.2⟩

/-- Claim C9: when the cursor of a cleared key already sits at the
capacity bound 200, a further file with data rows still writes its
file-identifier marker at row 200 (over the previously written last row),
contributes no data rows (a data write action is not emitted), records
the truncation warning, and leaves the cursor at 200; and in general,
under the batch invariant, a written plan always places the marker row
between 4 and the capacity bound 200. -/
theorem marker_at_capacity_bound :
    (∀ (sheets : List String) (st : BatchState) (f : CsvFile) (month : String),
      InvS st → extractMonthFromFileName f.name = some month → month ∈ sheets →
      month ∈ st.sheetCleared → getPtr st.sheetRowPtr month = some 200 →
      2 ≤ f.rows.length →
      (processFile sheets st f).2 = FileOutcome.written month
        { startRow := 200, endRow := 200, truncated := true } ∧
      (processFile sheets st f).1.actions =
        st.actions ++ [WriteAction.writeFileName month 200 f.name] ∧
      (processFile sheets st f).1.warnings = st.warnings ++ [truncMsg f.name] ∧
      getPtr (processFile sheets st f).1.sheetRowPtr month = some 200) ∧
    (∀ (sheets : List String) (st : BatchState) (f : CsvFile) (m : String)
      (pl : PlacementPlan),
      InvS st → (processFile sheets st f).2 = FileOutcome.written m pl →
      4 ≤ pl.startRow ∧ pl.startRow ≤ 200) := by
  constructor
  · intro sheets st f month hInv hE hS hC hP hlen
    have hEff : effRow (clearStage st month) month = 200 := by
      rw [clearStage_of_mem hC]
      show jsOrFour (getPtr st.sheetRowPtr month) = 200
      rw [hP]
      simp [jsOrFour]
    have hplan : planPlacement 200 ((f.rows.drop 1).map normalize12) =
        ({ startRow := 200, endRow := 200, truncated := true }, 200,
          ((f.rows.drop 1).map normalize12).take (200 - 200)) := by
      apply planPlacement_trunc 200 _ (le_refl 200)
      have : ((f.rows.drop 1).map normalize12).length = f.rows.length - 1 := by simp
      omega
    have htake : ((f.rows.drop 1).map normalize12).take (200 - 200) =
        ([] : List (List String)) := by
      simp
    rw [processFile_route_some hE hS, writeStage_write hlen, hEff, hplan, htake]
    refine ⟨rfl, ?_, ?_, ?_⟩
    · show (clearStage st month).actions ++
        ([WriteAction.writeFileName month 200 f.name] ++
          (if (List.length ([] : List (List String))) = 0 then []
           else [WriteAction.writeData month (200 + 1)
              (200 + 1 + (List.length ([] : List (List String))) - 1)
              ([] : List (List String))])) = st.actions ++ [WriteAction.writeFileName month 200 f.name]
      rw [clearStage_of_mem hC]
      simp
    · show (clearStage st month).warnings ++ (if true = true then [truncMsg f.name] else []) =
        st.warnings ++ [truncMsg f.name]
      rw [clearStage_warnings]
      simp
    · show getPtr (setPtr (clearStage st month).sheetRowPtr month 200) month = some 200
      rw [getPtr_setPtr, if_pos rfl]
  · intro sheets st f m pl hInv hw
    cases hE : extractMonthFromFileName f.name with
    | none =>
      rw [processFile_route_none hE] at hw
      exact absurd hw (by simp)
    | some month =>
      by_cases hS : month ∈ sheets
      · rw [processFile_route_some hE hS] at hw
        have hInv1 : InvS (clearStage st month) := invS_clearStage hInv month
        rcases Nat.lt_or_ge f.rows.length 2 with hlen | hlen
        · rcases (by omega : f.rows.length = 0 ∨ f.rows.length = 1) with h0 | h1
          · rw [writeStage_empty h0] at hw
            exact absurd hw (by simp)
          · rw [writeStage_noData h1] at hw
            exact absurd hw (by simp)
        · rw [writeStage_write hlen] at hw
          simp only [FileOutcome.written.injEq] at hw
          obtain ⟨-, hpl⟩ := hw
          rw [← hpl, planPlacement_startRow]
          exact effRow_bounds hInv1 month
      · rw [processFile_no_sheet hE hS] at hw
        exact absurd hw (by simp)

/-- Witness for C9 at a concrete state with the cursor of sheet 6 parked
at the capacity bound. -/
theorem marker_at_capacity_bound_witness :
    (processFile ["6"]
      { sheetRowPtr := [("6", 200)], sheetCleared := ["6"], warnings := [], actions := [] }
      { name := "enavi202506(3034).csv", rows := [["h"], ["a"]] }).2 =
      FileOutcome.written "6" { startRow := 200, endRow := 200, truncated := true } ∧
    (processFile ["6"]
      { sheetRowPtr := [("6", 200)], sheetCleared := ["6"], warnings := [], actions := [] }
      { name := "enavi202506(3034).csv", rows := [["h"], ["a"]] }).1.actions =
      ({ sheetRowPtr := [("6", 200)], sheetCleared := ["6"], warnings := [],
         actions := [] } : BatchState).actions ++
        [WriteAction.writeFileName "6" 200 "enavi202506(3034).csv"] ∧
    (processFile ["6"]
      { sheetRowPtr := [("6", 200)], sheetCleared := ["6"], warnings := [], actions := [] }
      { name := "enavi202506(3034).csv", rows := [["h"], ["a"]] }).1.warnings =
      ({ sheetRowPtr := [("6", 200)], sheetCleared := ["6"], warnings := [],
         actions := [] } : BatchState).warnings ++ [truncMsg "enavi202506(3034).csv"] ∧
    getPtr (processFile ["6"]
      { sheetRowPtr := [("6", 200)], sheetCleared := ["6"], warnings := [], actions := [] }
      { name := "enavi202506(3034).csv", rows := [["h"], ["a"]] }).1.sheetRowPtr "6" =
      some 200 :=
  marker_at_capacity_bound.1 ["6"]
    { sheetRowPtr := [("6", 200)], sheetCleared := ["6"], warnings := [], actions := [] }
    { name := "enavi202506(3034).csv", rows := [["h"], ["a"]] } "6"
    (by unfold InvS; decide) (by decide) (by decide) (by decide) (by decide) (by decide)

/-- Counterexample to claim C4 as stated: an empty file whose name routes
to an existing sheet, on a key that is still Unseen, does trigger the
clear-target side effect (and creates the cursor entry) before the
emptiness check, in addition to the recorded skip warning. -/
theorem zero_rows_clear_counterexample :
    ({ name := "enavi202506(3034).csv", rows := [] } : CsvFile).rows.length = 0 ∧
    initS.sheetCleared = [] ∧
    (processFile ["6"] initS { name := "enavi202506(3034).csv", rows := [] }).1.actions =
      [WriteAction.clearRange "6"] ∧
    (processFile ["6"] initS
      { name := "enavi202506(3034).csv", rows := [] }).1.sheetCleared = ["6"] ∧
    (processFile ["6"] initS { name := "enavi202506(3034).csv", rows := [] }).1.warnings =
      [emptyMsg "enavi202506(3034).csv"] := by
  decide

/-- Claim C4 as amended: a file contributing zero data rows (empty, or
only a header) yields a skip with exactly one recorded warning, is never
written, and leaves every effective cursor value unchanged; however the
clear-target side effect is not suppressed: when routing succeeds, the
target sheet exists and the key is still Unseen, the clear fires and the
stored cursor of the key is initialised to the start row 4 before the
emptiness check; the clear is not triggered when routing fails, when the
sheet is missing, or when the key was already cleared. -/
theorem zero_rows_skip_amended :
    (∀ (sheets : List String) (st : BatchState) (f : CsvFile) (m : String), InvS st →
      f.rows.length ≤ 1 →
      effRow (processFile sheets st f).1 m = effRow st m ∧
      (∀ mo pl, (processFile sheets st f).2 ≠ FileOutcome.written mo pl) ∧
      (∃ w, (processFile sheets st f).1.warnings = st.warnings ++ [w])) ∧
    (∀ (sheets : List String) (st : BatchState) (f : CsvFile) (month : String),
      f.rows.length ≤ 1 →
      extractMonthFromFileName f.name = some month → month ∈ sheets →
      month ∉ st.sheetCleared →
      (processFile sheets st f).1.sheetCleared = month :: st.sheetCleared ∧
      (processFile sheets st f).1.actions = st.actions ++ [WriteAction.clearRange month] ∧
      getPtr (processFile sheets st f).1.sheetRowPtr month = some 4) ∧
    (∀ (sheets : List String) (st : BatchState) (f : CsvFile),
      f.rows.length ≤ 1 →
      (∀ month, extractMonthFromFileName f.name = some month →
        (month ∉ sheets ∨ month ∈ st.sheetCleared)) →
      (processFile sheets st f).1.sheetCleared = st.sheetCleared ∧
      (processFile sheets st f).1.actions = st.actions) := by
  refine ⟨?_, ?_, ?_⟩
  · intro sheets st f m hInv hlen
    cases hE : extractMonthFromFileName f.name with
    | none =>
      rw [processFile_route_none hE]
      exact ⟨rfl, fun mo pl => by simp, ⟨noMonthMsg f.name, rfl⟩⟩
    | some month =>
      by_cases hS : month ∈ sheets
      · rw [processFile_route_some hE hS]
        rcases (by omega : f.rows.length = 0 ∨ f.rows.length = 1) with h0 | h1
        · rw [writeStage_empty h0]
          refine ⟨?_, fun mo pl => by simp, ?_⟩
          · show effRow (clearStage st month) m = effRow st m
            exact effRow_clearStage hInv month m
          · refine ⟨emptyMsg f.name, ?_⟩
            show (clearStage st month).warnings ++ [emptyMsg f.name] = _
            rw [clearStage_warnings]
        · rw [writeStage_noData h1]
          refine ⟨?_, fun mo pl => by simp, ?_⟩
          · show effRow (clearStage st month) m = effRow st m
            exact effRow_clearStage hInv month m
          · refine ⟨noDataMsg f.name, ?_⟩
            show (clearStage st month).warnings ++ [noDataMsg f.name] = _
            rw [clearStage_warnings]
      · rw [processFile_no_sheet hE hS]
        exact ⟨rfl, fun mo pl => by simp, ⟨noSheetMsg f.name month, rfl⟩⟩
  · intro sheets st f month hlen hE hS hC
    rw [processFile_route_some hE hS]
    have hclr := clearStage_of_not_mem hC
    rcases (by omega : f.rows.length = 0 ∨ f.rows.length = 1) with h0 | h1
    · rw [writeStage_empty h0]
      refine ⟨?_, ?_, ?_⟩
      · show (clearStage st month).sheetCleared = _
        rw [hclr]
      · show (clearStage st month).actions = _
        rw [hclr]
      · show getPtr (clearStage st month).sheetRowPtr month = some 4
        rw [hclr]
        show getPtr (setPtr st.sheetRowPtr month 4) month = some 4
        rw [getPtr_setPtr, if_pos rfl]
    · rw [writeStage_noData h1]
      refine ⟨?_, ?_, ?_⟩
      · show (clearStage st month).sheetCleared = _
        rw [hclr]
      · show (clearStage st month).actions = _
        rw [hclr]
      · show getPtr (clearStage st month).sheetRowPtr month = some 4
        rw [hclr]
        show getPtr (setPtr st.sheetRowPtr month 4) month = some 4
        rw [getPtr_setPtr, if_pos rfl]
  · intro sheets st f hlen hOnly
    cases hE : extractMonthFromFileName f.name with
    | none =>
      rw [processFile_route_none hE]
      exact ⟨rfl, rfl⟩
    | some month =>
      rcases hOnly month hE with hS | hC
      · rw [processFile_no_sheet hE hS]
        exact ⟨rfl, rfl⟩
      · by_cases hS : month ∈ sheets
        · rw [processFile_route_some hE hS]
          have hclr := clearStage_of_mem hC
          rcases (by omega : f.rows.length = 0 ∨ f.rows.length = 1) with h0 | h1
          · rw [writeStage_empty h0]
            constructor
            · show (clearStage st month).sheetCleared = _
              rw [hclr]
            · show (clearStage st month).actions = _
              rw [hclr]
          · rw [writeStage_noData h1]
            constructor
            · show (clearStage st month).sheetCleared = _
              rw [hclr]
            · show (clearStage st month).actions = _
              rw [hclr]
        · rw [processFile_no_sheet hE hS]
          exact ⟨rfl, rfl⟩

/-- Witness for the amended C4: an empty routed file on a fresh key sets
the cleared flag, emits exactly the clear action, initialises the stored
cursor to 4, and the effective cursor value stays 4. -/
theorem zero_rows_skip_amended_witness :
    effRow (processFile ["6"] initS
      { name := "enavi202506(3034).csv", rows := [] }).1 "6" = effRow initS "6" ∧
    (processFile ["6"] initS
      { name := "enavi202506(3034).csv", rows := [] }).1.sheetCleared =
      "6" :: initS.sheetCleared ∧
    (processFile ["6"] initS { name := "enavi202506(3034).csv", rows := [] }).1.actions =
      initS.actions ++ [WriteAction.clearRange "6"] ∧
    getPtr (processFile ["6"] initS
      { name := "enavi202506(3034).csv", rows := [] }).1.sheetRowPtr "6" = some 4 := by
  have h1 := (zero_rows_skip_amended.1 ["6"] initS
    { name := "enavi202506(3034).csv", rows := [] } "6"
    (by unfold InvS; decide) (by decide)).1
  have h2 := zero_rows_skip_amended.2.1 ["6"] initS
    { name := "enavi202506(3034).csv", rows := [] } "6"
    (by decide) (by decide) (by decide) (by decide)
  exact ⟨h1, h2.1, h2.2.1, h2.2.2⟩
